import Mathlib

/-!
Verification of `image_segmentation/pytorch/model/losses.py`.

Tensors are modelled as a shape (list of dimension extents) together with a
total data function from multi-indices to rational numbers; two tensors are
observationally equal when their shapes agree and their entries agree on
every in-range multi-index.  The floating-point arithmetic of the numeric
backend is modelled exactly over `ℚ` (the smoothing constant `1e-6` becomes
`1/1000000`).  The transcendental or library-supplied primitives — softmax,
`nn.CrossEntropyLoss`, `nn.BCEWithLogitsLoss` and monai's `DiceLoss` — are
passed in as explicit function parameters, mirroring the design document's
treatment of the numeric/autodiff library as an external collaborator; every
other operation (squeeze, one-hot expansion, permutation, slicing, argmax,
reduction sums, elementwise arithmetic) is defined concretely below.

The two `assert` statements of `Dice.__call__` are modelled as an
`Except DiceErr` result carrying the data each failure message reports,
alongside the fatal errors the numeric library raises inside the call's
normalization and encoding steps: an argmax over an empty channel axis and
a one-hot expansion of a value outside `[0, num_classes)` (the latter is a
fatal input-validation error, never a silent clamp).
-/

structure Tensor where
  shape : List ℕ
  data : List ℕ → ℚ

/-- All in-range multi-indices of a shape, in row-major order. -/
def allIdx : List ℕ → List (List ℕ)
  | [] => [[]]
  | n :: ns => (List.range n).flatMap fun i => (allIdx ns).map fun idx => i :: idx

/-- Observational tensor equality: the shapes agree and the entries agree at
every valid multi-index. -/
def Tensor.Eq (a b : Tensor) : Prop :=
  a.shape = b.shape ∧ ∀ idx ∈ allIdx a.shape, a.data idx = b.data idx

/-- Resolution of a possibly negative (python-style) axis against a rank. -/
def resolveAxis (rank : ℕ) (a : ℤ) : ℕ :=
  (if a < 0 then (rank : ℤ) + a else a).toNat

/-- Model of `torch.squeeze(x, dim=a)`: the axis `a` is dropped when its
extent is 1, otherwise the tensor is returned unchanged. -/
def squeezeDim (t : Tensor) (a : ℤ) : Tensor :=
  let j := resolveAxis t.shape.length a
  if t.shape.getD j 0 = 1 then
    ⟨t.shape.eraseIdx j, fun idx => t.data (idx.insertIdx j 0)⟩
  else t

/-- Model of `x.long()`: every entry is truncated toward zero, exactly as
float-to-int64 conversion truncates. -/
def ratTrunc (q : ℚ) : ℤ := q.num.tdiv q.den

/-- Model of `x.long()` on a whole tensor. -/
def tensorLong (t : Tensor) : Tensor :=
  ⟨t.shape, fun idx => ((ratTrunc (t.data idx) : ℤ) : ℚ)⟩

/-- Model of `F.one_hot(x, num_classes)` applied to an integer-valued
tensor: a new trailing indicator axis of extent `num_classes` is appended,
and the entry at trailing coordinate `c` is 1 exactly when the voxel's
value equals `c`. -/
def oneHotLast (t : Tensor) (num_classes : ℕ) : Tensor :=
  ⟨t.shape ++ [num_classes],
   fun idx => if t.data idx.dropLast = (idx.getLastD 0 : ℚ) then 1 else 0⟩

/-- Model of `x.permute(0, 4, 1, 2, 3)`: defined on rank-5 tensors, where
the last axis is moved to position 1; outside rank 5 the original call is
rejected by the library, and the model returns the tensor unchanged (no
claim exercises that branch). -/
def permute04123 (t : Tensor) : Tensor :=
  match t.shape with
  | [s0, s1, s2, s3, s4] =>
    ⟨[s0, s4, s1, s2, s3],
     fun idx => t.data [idx.getD 0 0, idx.getD 2 0, idx.getD 3 0, idx.getD 4 0, idx.getD 1 0]⟩
  | _ => t

/-- Model of `to_one_hot(array, layout, channel_axis, num_classes)`
(`losses.py` lines 65-71): squeeze the channel axis when the rank is at
least 5, cast to integers, expand along a new trailing indicator axis, and
for the `NCDHW` layout move that axis to position 1. -/
def to_one_hot (array : Tensor) (layout : String) (channel_axis : ℤ) (num_classes : ℕ) : Tensor :=
  let a1 := if array.shape.length ≥ 5 then squeezeDim array channel_axis else array
  let a2 := oneHotLast (tensorLong a1) num_classes
  if layout = "NCDHW" then permute04123 a2 else a2

/-- Elementwise product `target * prediction` (the call site guards that the
shapes are equal). -/
def elemMul (a b : Tensor) : Tensor := ⟨a.shape, fun idx => a.data idx * b.data idx⟩

/-- Model of `torch.sum(x, dim=[d])` for a single axis `d`
(keepdim=False): axis `d` is removed and entries are summed along it. -/
def sumDim1 (t : Tensor) (d : ℕ) : Tensor :=
  ⟨t.shape.eraseIdx d,
   fun idx => ∑ j ∈ Finset.range (t.shape.getD d 0), t.data (idx.insertIdx d j)⟩

/-- Model of `torch.sum(x, dim=dims)` for an increasing list of axes (the
call sites always pass `list(range(...))`): the axes are reduced from the
highest down, so removing one axis never shifts the position of the
remaining ones. -/
def sumDims (t : Tensor) (dims : List ℕ) : Tensor := dims.reverse.foldl sumDim1 t

/-- Model of `torch.argmax(x, dim=a)`: along axis `a` the index of the
first maximal entry is taken and the axis is removed. -/
def argmaxAlong (t : Tensor) (a : ℤ) : Tensor :=
  let j := resolveAxis t.shape.length a
  ⟨t.shape.eraseIdx j,
   fun idx =>
     (((List.range (t.shape.getD j 0)).foldl
       (fun best i =>
         if t.data (idx.insertIdx j i) > t.data (idx.insertIdx j best) then i else best) 0 : ℕ) : ℚ)⟩

/-- Configuration captured by `Dice.__init__` (`losses.py` lines 6-21).
The `num_classes` argument is accepted by the constructor but never stored
into nor read from the object; it is kept here as a field so that its
irrelevance is statable. -/
structure DiceCfg where
  to_onehot_y : Bool
  to_onehot_x : Bool
  use_softmax : Bool
  use_argmax : Bool
  include_background : Bool
  layout : String
  num_classes : ℕ

/-- The fixed numerator smoothing constant `1e-6`. -/
def smooth_nr : ℚ := 1 / 1000000

/-- The fixed denominator smoothing constant `1e-6`. -/
def smooth_dr : ℚ := 1 / 1000000

/-- Failures raised during `Dice.__call__`: the two `assert` statements
(carrying the data their messages report), the numeric library's fatal
error for an argmax over an empty reduction axis (`torch.argmax` on a
zero-extent dim), and its fatal error for a one-hot input value outside
`[0, num_classes)` (`F.one_hot` rejects such values rather than silently
clamping them). -/
inductive DiceErr where
  | backgroundSingle (num_pred_ch : ℕ)
  | shapeMismatch (targetShape predShape : List ℕ)
  | argmaxEmpty
  | oneHotOutOfRange

/-- Channel axis determined by the layout (`losses.py` lines 24-31): 1 for
`NCDHW`, python-style -1 otherwise. -/
def channelAxis (layout : String) : ℤ := if layout = "NCDHW" then 1 else -1

/-- Reduction axes determined by the layout (`losses.py` lines 26 and 30):
`range(2, rank)` for `NCDHW`, `range(1, rank - 1)` otherwise, where `rank`
is the rank of the incoming prediction. -/
def reduceAxes (layout : String) (rank : ℕ) : List ℕ :=
  if layout = "NCDHW" then List.range' 2 (rank - 2) else List.range' 1 (rank - 2)

/-- Channel count read from the prediction's channel axis before any
normalization (`losses.py` lines 27, 31, 32; the same expression yields
both `num_classes` and `num_pred_ch`). -/
def numPredCh (layout : String) (prediction : Tensor) : ℕ :=
  if layout = "NCDHW" then prediction.shape.getD 1 0 else prediction.shape.getLastD 0

/-- Normalization step (`losses.py` lines 34-37): softmax along the channel
axis when `use_softmax`, otherwise argmax collapse when `use_argmax`,
otherwise the raw prediction.  `softmaxF` is the external library's
softmax. -/
def normalizePred (softmaxF : Tensor → ℤ → Tensor) (cfg : DiceCfg) (prediction : Tensor) : Tensor :=
  if cfg.use_softmax then softmaxF prediction (channelAxis cfg.layout)
  else if cfg.use_argmax then argmaxAlong prediction (channelAxis cfg.layout)
  else prediction

/-- Target encoding step (`losses.py` lines 39-40). -/
def encodeTarget (cfg : DiceCfg) (num_classes : ℕ) (target : Tensor) : Tensor :=
  if cfg.to_onehot_y then to_one_hot target cfg.layout (channelAxis cfg.layout) num_classes
  else target

/-- Prediction encoding step (`losses.py` lines 42-43). -/
def encodePred (cfg : DiceCfg) (num_classes : ℕ) (prediction : Tensor) : Tensor :=
  if cfg.to_onehot_x then to_one_hot prediction cfg.layout (channelAxis cfg.layout) num_classes
  else prediction

/-- Model of `x[:, 1:]` (`NCDHW`) and `x[..., 1:]` (otherwise): entry 0 of
the channel axis is dropped. -/
def dropChannel (layout : String) (t : Tensor) : Tensor :=
  let a := if layout = "NCDHW" then 1 else t.shape.length - 1
  ⟨t.shape.set a (t.shape.getD a 0 - 1),
   fun idx => t.data (idx.set a (idx.getD a 0 + 1))⟩

/-- Test that every in-range entry of a tensor, truncated to an integer as
by `x.long()`, lies in `[0, num_classes)` — the precondition under which
`F.one_hot` succeeds instead of raising its fatal out-of-range error. -/
def oneHotInRange (t : Tensor) (num_classes : ℕ) : Bool :=
  (allIdx t.shape).all fun idx =>
    decide (0 ≤ ratTrunc (t.data idx)) && decide (ratTrunc (t.data idx) < (num_classes : ℤ))

/-- The success condition of `to_one_hot`: the tensor actually handed to
`F.one_hot` (after the conditional squeeze on its channel axis) has all its
values in `[0, num_classes)`. -/
def oneHotGuard (array : Tensor) (channel_axis : ℤ) (num_classes : ℕ) : Bool :=
  oneHotInRange (if array.shape.length ≥ 5 then squeezeDim array channel_axis else array)
    num_classes

/-- Lines 34-43 of `Dice.__call__`: normalization followed by the two
optional one-hot encodings, with the numeric library's fatal errors on
those lines modelled faithfully: `torch.argmax` raises when the reduced
channel axis has extent 0 (line 37), and each `to_one_hot` call raises
when a value handed to `F.one_hot` falls outside `[0, num_classes)`
(lines 40 and 43). -/
def Dice.encodeStage (softmaxF : Tensor → ℤ → Tensor) (cfg : DiceCfg)
    (prediction target : Tensor) : Except DiceErr (Tensor × Tensor) :=
  let nCls := numPredCh cfg.layout prediction
  if cfg.use_softmax = false ∧ cfg.use_argmax = true
      ∧ prediction.shape.getD
          (resolveAxis prediction.shape.length (channelAxis cfg.layout)) 0 = 0 then
    .error .argmaxEmpty
  else
    let p1 := normalizePred softmaxF cfg prediction
    if cfg.to_onehot_y = true ∧ oneHotGuard target (channelAxis cfg.layout) nCls = false then
      .error .oneHotOutOfRange
    else if cfg.to_onehot_x = true ∧ oneHotGuard p1 (channelAxis cfg.layout) nCls = false then
      .error .oneHotOutOfRange
    else
      .ok (encodeTarget cfg nCls target, encodePred cfg nCls p1)

/-- Lines 24-53 of `Dice.__call__`: normalization, one-hot encoding and
background exclusion, producing the (target, prediction) pair that the
final overlap computation consumes.  When `include_background` is false the
source asserts `num_pred_ch > 1` before dropping channel 0 from both
tensors. -/
def Dice.preprocess (softmaxF : Tensor → ℤ → Tensor) (cfg : DiceCfg)
    (prediction target : Tensor) : Except DiceErr (Tensor × Tensor) := do
  let (t1, p2) ← Dice.encodeStage softmaxF cfg prediction target
  if cfg.include_background then .ok (t1, p2)
  else if 1 < numPredCh cfg.layout prediction then
    .ok (dropChannel cfg.layout t1, dropChannel cfg.layout p2)
  else .error (.backgroundSingle (numPredCh cfg.layout prediction))

/-- Lines 58-62 of `Dice.__call__`: the smoothed overlap statistic
`(2 * intersection + smooth_nr) / (target_sum + prediction_sum + smooth_dr)`,
with every sum reducing over the axes in `dims`. -/
def diceOverlap (target prediction : Tensor) (dims : List ℕ) : Tensor :=
  let inter := sumDims (elemMul target prediction) dims
  let tSum := sumDims target dims
  let pSum := sumDims prediction dims
  ⟨inter.shape,
   fun idx => (2 * inter.data idx + smooth_nr) / (tSum.data idx + pSum.data idx + smooth_dr)⟩

/-- Model of `Dice.__call__` (`losses.py` lines 23-62). -/
def Dice.call (softmaxF : Tensor → ℤ → Tensor) (cfg : DiceCfg)
    (prediction target : Tensor) : Except DiceErr Tensor := do
  let (t2, p3) ← Dice.preprocess softmaxF cfg prediction target
  if t2.shape = p3.shape then
    .ok (diceOverlap t2 p3 (reduceAxes cfg.layout prediction.shape.length))
  else
    .error (.shapeMismatch t2.shape p3.shape)

/-- Model of `torch.mean(x)`: arithmetic mean over all entries. -/
def tmean (t : Tensor) : ℚ :=
  (((allIdx t.shape).map t.data).sum) / ((allIdx t.shape).length : ℚ)

/-- Model of `1.0 - x` elementwise. -/
def oneSub (t : Tensor) : Tensor := ⟨t.shape, fun idx => 1 - t.data idx⟩

/-- Model of `DiceCELoss.forward` (`losses.py` lines 74-84).  The wrapped
`Dice` object is constructed with `to_onehot_x=False` and `use_argmax=False`
defaults; `ce` is the external `nn.CrossEntropyLoss` primitive, applied to
the raw logits and the target with its axis-1 singleton squeezed and cast
to integer class indices. -/
def DiceCELoss.forward (softmaxF : Tensor → ℤ → Tensor) (ce : Tensor → Tensor → ℚ)
    (to_onehot_y use_softmax : Bool) (layout : String) (include_background : Bool)
    (num_classes : ℕ) (y_pred y_true : Tensor) : Except DiceErr ℚ := do
  let crossEntropy := ce y_pred (tensorLong (squeezeDim y_true 1))
  let d ← Dice.call softmaxF
    ⟨to_onehot_y, false, use_softmax, false, include_background, layout, num_classes⟩
    y_pred y_true
  let dice := tmean (oneSub d)
  return (dice + crossEntropy) / 2

/-- Model of `torch.mean(x, dim=0)`. -/
def meanDim0 (t : Tensor) : Tensor :=
  ⟨t.shape.eraseIdx 0,
   fun idx => (∑ j ∈ Finset.range (t.shape.getD 0 0), t.data (j :: idx)) / (t.shape.getD 0 0 : ℚ)⟩

/-- Model of `DiceScore.__call__` (`losses.py` lines 87-94): the wrapped
`Dice` object is constructed with `to_onehot_x=True` and
`use_softmax=False`, and the per-class result is averaged over the batch
axis. -/
def DiceScore.call (softmaxF : Tensor → ℤ → Tensor) (to_onehot_y use_argmax : Bool)
    (layout : String) (include_background : Bool) (num_classes : ℕ)
    (y_pred y_true : Tensor) : Except DiceErr Tensor := do
  let d ← Dice.call softmaxF
    ⟨to_onehot_y, true, false, use_argmax, include_background, layout, num_classes⟩
    y_pred y_true
  return meanDim0 d

/-- Model of `y > 0` as a 0/1 tensor. -/
def tensorGtZero (t : Tensor) : Tensor :=
  ⟨t.shape, fun idx => if 0 < t.data idx then 1 else 0⟩

/-- Model of `y == c` as a 0/1 tensor. -/
def tensorEqConst (t : Tensor) (c : ℚ) : Tensor :=
  ⟨t.shape, fun idx => if t.data idx = c then 1 else 0⟩

/-- Elementwise sum (model of `+` on same-shaped mask tensors). -/
def tensorAdd (a b : Tensor) : Tensor := ⟨a.shape, fun idx => a.data idx + b.data idx⟩

/-- Model of `p[:, k].unsqueeze(1)`: channel `k` is selected and a
singleton channel axis is kept at position 1. -/
def selectChannel (p : Tensor) (k : ℕ) : Tensor :=
  ⟨p.shape.set 1 1, fun idx => p.data (idx.set 1 k)⟩

/-- Model of `LossBraTS._loss` (`losses.py` lines 103-104): `diceL` is
monai's `DiceLoss(sigmoid=True, batch=True)` and `bce` is
`nn.BCEWithLogitsLoss`, both external primitives.  On this model the
region masks are already 0/1 rationals, so the source's `y.float()` cast
is the identity. -/
def LossBraTS.loss (diceL bce : Tensor → Tensor → ℚ) (p y : Tensor) : ℚ :=
  diceL p y + bce p y

/-- Model of `LossBraTS.forward` (`losses.py` lines 106-110): the three
binary region masks are derived from the integer target, paired with
prediction channels 0/1/2, and the three per-region losses are summed. -/
def LossBraTS.forward (diceL bce : Tensor → Tensor → ℚ) (p y : Tensor) : ℚ :=
  let y_wt := tensorGtZero y
  let y_tc := tensorGtZero (tensorAdd (tensorEqConst y 1) (tensorEqConst y 3))
  let y_et := tensorEqConst y 3
  let p_wt := selectChannel p 0
  let p_tc := selectChannel p 1
  let p_et := selectChannel p 2
  LossBraTS.loss diceL bce p_wt y_wt + LossBraTS.loss diceL bce p_tc y_tc
    + LossBraTS.loss diceL bce p_et y_et

/-- An external softmax instance used by concrete witnesses: the identity
normalization (any function of the right type will do, since the theorems
quantify over the primitive). -/
def idSoftmax : Tensor → ℤ → Tensor := fun u _ => u

/-- A rank-5 all-ones sample tensor. -/
def oneT5 : Tensor := ⟨[1, 1, 1, 1, 1], fun _ => 1⟩

/-- A rank-5 sample tensor with two channels, all entries 1. -/
def twoT5 : Tensor := ⟨[1, 2, 1, 1, 1], fun _ => 1⟩

/-- A rank-4 all-zero sample label map. -/
def zeroT4 : Tensor := ⟨[1, 1, 1, 1], fun _ => 0⟩

/-- A rank-5 all-zero sample label map with a singleton channel axis. -/
def zeroT5 : Tensor := ⟨[1, 1, 1, 1, 1], fun _ => 0⟩

/-- A prediction whose channel axis has extent zero. -/
def zeroChanPred : Tensor := ⟨[1, 0, 2, 2, 2], fun _ => 0⟩

/-- A sample target containing each of the label values 0, 1, 2 and 3. -/
def y4 : Tensor :=
  ⟨[1, 1, 2, 2],
   fun idx =>
     if idx = [0, 0, 0, 0] then 0
     else if idx = [0, 0, 0, 1] then 1
     else if idx = [0, 0, 1, 0] then 2
     else 3⟩

/-- A trivial external loss primitive used by concrete witnesses. -/
def zeroLoss : Tensor → Tensor → ℚ := fun _ _ => 0

/-! ## Helper lemmas -/

theorem ratTrunc_natCast (n : ℕ) : ratTrunc (n : ℚ) = (n : ℤ) := by
  simp [ratTrunc]

theorem mem_allIdx_nil (idx : List ℕ) : idx ∈ allIdx [] ↔ idx = [] := by
  simp [allIdx]

theorem mem_allIdx_cons (n : ℕ) (ns : List ℕ) (idx : List ℕ) :
    idx ∈ allIdx (n :: ns) ↔ ∃ i tl, i < n ∧ tl ∈ allIdx ns ∧ idx = i :: tl := by
  simp only [allIdx, List.mem_flatMap, List.mem_map, List.mem_range]
  constructor
  · rintro ⟨i, hi, tl, htl, rfl⟩
    exact ⟨i, tl, hi, htl, rfl⟩
  · rintro ⟨i, tl, hi, htl, rfl⟩
    exact ⟨i, hi, tl, htl, rfl⟩

theorem mem_allIdx_pair (m n : ℕ) (idx : List ℕ) (h : idx ∈ allIdx [m, n]) :
    ∃ b c, b < m ∧ c < n ∧ idx = [b, c] := by
  rw [mem_allIdx_cons] at h
  obtain ⟨b, tl, hb, htl, rfl⟩ := h
  rw [mem_allIdx_cons] at htl
  obtain ⟨c, tl2, hc, htl2, rfl⟩ := htl
  rw [mem_allIdx_nil] at htl2
  subst htl2
  exact ⟨b, c, hb, hc, rfl⟩

theorem mem_allIdx_four (n0 n1 n2 n3 : ℕ) (idx : List ℕ) (h : idx ∈ allIdx [n0, n1, n2, n3]) :
    ∃ b x y z, b < n0 ∧ x < n1 ∧ y < n2 ∧ z < n3 ∧ idx = [b, x, y, z] := by
  rw [mem_allIdx_cons] at h
  obtain ⟨b, tl, hb, htl, rfl⟩ := h
  rw [mem_allIdx_cons] at htl
  obtain ⟨x, tl, hx, htl, rfl⟩ := htl
  rw [mem_allIdx_cons] at htl
  obtain ⟨y, tl, hy, htl, rfl⟩ := htl
  rw [mem_allIdx_cons] at htl
  obtain ⟨z, tl, hz, htl, rfl⟩ := htl
  rw [mem_allIdx_nil] at htl
  subst htl
  exact ⟨b, x, y, z, hb, hx, hy, hz, rfl⟩

/-- The first-occurrence argmax fold stays at 0 whenever no later value
exceeds the value at 0. -/
theorem foldl_argmax_le (v : ℕ → ℚ) (l : List ℕ) (h : ∀ j ∈ l, v j ≤ v 0) :
    l.foldl (fun best j => if v j > v best then j else best) 0 = 0 := by
  induction l with
  | nil => rfl
  | cons x l ih =>
    simp only [List.foldl_cons]
    rw [if_neg (by exact not_lt.mpr (h x (List.mem_cons_self x l)))]
    exact ih fun j hj => h j (List.mem_cons_of_mem x hj)

/-- The first-occurrence argmax fold applied to a one-hot indicator finds
the hot index. -/
theorem foldl_argmax_indicator (v : ℕ → ℚ) (m k : ℕ) (hm : m < k)
    (hv1 : v m = 1) (hv0 : ∀ j, j ≠ m → v j = 0) :
    (List.range k).foldl (fun best j => if v j > v best then j else best) 0 = m := by
  induction k with
  | zero => omega
  | succ k ih =>
    rw [List.range_succ, List.foldl_append]
    rcases Nat.lt_or_ge m k with hmk | hmk
    · rw [ih hmk]
      simp only [List.foldl_cons, List.foldl_nil]
      rw [hv0 k (by omega), hv1]
      norm_num
    · have hm' : m = k := by omega
      subst hm'
      rcases Nat.eq_zero_or_pos m with h0 | h0
      · subst h0
        simp
      · have hfold : (List.range m).foldl (fun best j => if v j > v best then j else best) 0
            = 0 := by
          refine foldl_argmax_le v _ fun j hj => ?_
          rw [List.mem_range] at hj
          rw [hv0 j (by omega), hv0 0 (by omega)]
        rw [hfold]
        simp only [List.foldl_cons, List.foldl_nil]
        rw [hv0 0 (by omega), hv1]
        norm_num

/-- Evaluation of `to_one_hot` on a rank-5 `NCDHW` input with a singleton
channel axis. -/
theorem to_one_hot_NCDHW5 (t : Tensor) (k n0 n1 n2 n3 : ℕ) (f : List ℕ → ℕ)
    (hsh : t.shape = [n0, 1, n1, n2, n3])
    (hdata : ∀ idx, t.data idx = (f idx : ℚ)) :
    (to_one_hot t "NCDHW" 1 k).shape = [n0, k, n1, n2, n3]
    ∧ ∀ b c x y z, (to_one_hot t "NCDHW" 1 k).data [b, c, x, y, z]
        = if f [b, 0, x, y, z] = c then 1 else 0 := by
  constructor
  · simp [to_one_hot, squeezeDim, oneHotLast, tensorLong, permute04123, resolveAxis, hsh,
      List.eraseIdx]
  · intro b c x y z
    simp [to_one_hot, squeezeDim, oneHotLast, tensorLong, permute04123, resolveAxis, hsh,
      List.eraseIdx, List.insertIdx, hdata, ratTrunc_natCast]

/-- Evaluation of `to_one_hot` on a rank-4 `NCDHW` dense label map. -/
theorem to_one_hot_NCDHW4 (t : Tensor) (k n0 n1 n2 n3 : ℕ) (f : List ℕ → ℕ)
    (hsh : t.shape = [n0, n1, n2, n3])
    (hdata : ∀ idx, t.data idx = (f idx : ℚ)) :
    (to_one_hot t "NCDHW" 1 k).shape = [n0, k, n1, n2, n3]
    ∧ ∀ b c x y z, (to_one_hot t "NCDHW" 1 k).data [b, c, x, y, z]
        = if f [b, x, y, z] = c then 1 else 0 := by
  constructor
  · simp [to_one_hot, oneHotLast, tensorLong, permute04123, hsh]
  · intro b c x y z
    simp [to_one_hot, oneHotLast, tensorLong, permute04123, hsh, hdata, ratTrunc_natCast]

/-- Evaluation of `to_one_hot` on a rank-5 `NDHWC` input with a singleton
trailing channel axis. -/
theorem to_one_hot_NDHWC5 (t : Tensor) (k n0 n1 n2 n3 : ℕ) (f : List ℕ → ℕ)
    (hsh : t.shape = [n0, n1, n2, n3, 1])
    (hdata : ∀ idx, t.data idx = (f idx : ℚ)) :
    (to_one_hot t "NDHWC" (-1) k).shape = [n0, n1, n2, n3, k]
    ∧ ∀ b x y z c, (to_one_hot t "NDHWC" (-1) k).data [b, x, y, z, c]
        = if f [b, x, y, z, 0] = c then 1 else 0 := by
  constructor
  · simp [to_one_hot, squeezeDim, oneHotLast, tensorLong, resolveAxis, hsh, List.eraseIdx]
  · intro b x y z c
    simp [to_one_hot, squeezeDim, oneHotLast, tensorLong, resolveAxis, hsh,
      List.eraseIdx, List.insertIdx, hdata, ratTrunc_natCast]

theorem sumDims234_shape (t : Tensor) (n0 n1 n2 n3 n4 : ℕ) (h : t.shape = [n0, n1, n2, n3, n4]) :
    (sumDims t [2, 3, 4]).shape = [n0, n1] := by
  simp [sumDims, sumDim1, h, List.eraseIdx]

theorem sumDims234_data (t : Tensor) (n0 n1 n2 n3 n4 : ℕ) (h : t.shape = [n0, n1, n2, n3, n4])
    (b c : ℕ) :
    (sumDims t [2, 3, 4]).data [b, c]
      = ∑ i ∈ Finset.range n2, ∑ j ∈ Finset.range n3, ∑ k ∈ Finset.range n4,
          t.data [b, c, i, j, k] := by
  simp [sumDims, sumDim1, h, List.eraseIdx, List.insertIdx]

theorem sumDims123_shape (t : Tensor) (n0 n1 n2 n3 n4 : ℕ) (h : t.shape = [n0, n1, n2, n3, n4]) :
    (sumDims t [1, 2, 3]).shape = [n0, n4] := by
  simp [sumDims, sumDim1, h, List.eraseIdx]

theorem sumDims123_data (t : Tensor) (n0 n1 n2 n3 n4 : ℕ) (h : t.shape = [n0, n1, n2, n3, n4])
    (b c : ℕ) :
    (sumDims t [1, 2, 3]).data [b, c]
      = ∑ i ∈ Finset.range n1, ∑ j ∈ Finset.range n2, ∑ k ∈ Finset.range n3,
          t.data [b, i, j, k, c] := by
  simp [sumDims, sumDim1, h, List.eraseIdx, List.insertIdx]

theorem elemMul_shape (a b : Tensor) : (elemMul a b).shape = a.shape := rfl

/-- Evaluation of the overlap statistic over the `NCDHW` reduction axes of
a rank-5 pair. -/
theorem diceOverlap_NCDHW (t2 p3 : Tensor) (n0 n1 n2 n3 n4 : ℕ)
    (ht : t2.shape = [n0, n1, n2, n3, n4]) (hp : p3.shape = [n0, n1, n2, n3, n4]) :
    (diceOverlap t2 p3 [2, 3, 4]).shape = [n0, n1]
    ∧ ∀ b c, (diceOverlap t2 p3 [2, 3, 4]).data [b, c]
        = (2 * (∑ i ∈ Finset.range n2, ∑ j ∈ Finset.range n3, ∑ k ∈ Finset.range n4,
              t2.data [b, c, i, j, k] * p3.data [b, c, i, j, k]) + smooth_nr)
          / ((∑ i ∈ Finset.range n2, ∑ j ∈ Finset.range n3, ∑ k ∈ Finset.range n4,
              t2.data [b, c, i, j, k])
            + (∑ i ∈ Finset.range n2, ∑ j ∈ Finset.range n3, ∑ k ∈ Finset.range n4,
              p3.data [b, c, i, j, k]) + smooth_dr) := by
  have hm : (elemMul t2 p3).shape = [n0, n1, n2, n3, n4] := ht
  constructor
  · show (sumDims (elemMul t2 p3) [2, 3, 4]).shape = [n0, n1]
    exact sumDims234_shape _ _ _ _ _ _ hm
  · intro b c
    show (2 * (sumDims (elemMul t2 p3) [2, 3, 4]).data [b, c] + smooth_nr)
        / ((sumDims t2 [2, 3, 4]).data [b, c] + (sumDims p3 [2, 3, 4]).data [b, c] + smooth_dr)
      = _
    rw [sumDims234_data _ _ _ _ _ _ hm, sumDims234_data _ _ _ _ _ _ ht,
      sumDims234_data _ _ _ _ _ _ hp]
    rfl

/-- Evaluation of the overlap statistic over the channel-last reduction
axes of a rank-5 pair. -/
theorem diceOverlap_NDHWC (t2 p3 : Tensor) (n0 n1 n2 n3 n4 : ℕ)
    (ht : t2.shape = [n0, n1, n2, n3, n4]) (hp : p3.shape = [n0, n1, n2, n3, n4]) :
    (diceOverlap t2 p3 [1, 2, 3]).shape = [n0, n4]
    ∧ ∀ b c, (diceOverlap t2 p3 [1, 2, 3]).data [b, c]
        = (2 * (∑ i ∈ Finset.range n1, ∑ j ∈ Finset.range n2, ∑ k ∈ Finset.range n3,
              t2.data [b, i, j, k, c] * p3.data [b, i, j, k, c]) + smooth_nr)
          / ((∑ i ∈ Finset.range n1, ∑ j ∈ Finset.range n2, ∑ k ∈ Finset.range n3,
              t2.data [b, i, j, k, c])
            + (∑ i ∈ Finset.range n1, ∑ j ∈ Finset.range n2, ∑ k ∈ Finset.range n3,
              p3.data [b, i, j, k, c]) + smooth_dr) := by
  have hm : (elemMul t2 p3).shape = [n0, n1, n2, n3, n4] := ht
  constructor
  · show (sumDims (elemMul t2 p3) [1, 2, 3]).shape = [n0, n4]
    exact sumDims123_shape _ _ _ _ _ _ hm
  · intro b c
    show (2 * (sumDims (elemMul t2 p3) [1, 2, 3]).data [b, c] + smooth_nr)
        / ((sumDims t2 [1, 2, 3]).data [b, c] + (sumDims p3 [1, 2, 3]).data [b, c] + smooth_dr)
      = _
    rw [sumDims123_data _ _ _ _ _ _ hm, sumDims123_data _ _ _ _ _ _ ht,
      sumDims123_data _ _ _ _ _ _ hp]
    rfl

theorem dropChannel_shape (L : String) (t : Tensor) :
    (dropChannel L t).shape
      = t.shape.set (if L = "NCDHW" then 1 else t.shape.length - 1)
          (t.shape.getD (if L = "NCDHW" then 1 else t.shape.length - 1) 0 - 1) := rfl

/-! ## Claim theorems -/

/-- C1: for every prediction/target pair accepted by `Dice.__call__` (the
preprocessing pipeline succeeded and the post-processing shapes agree and
conform to the declared five-axis layout), the returned tensor has one
entry per batch item per retained channel, equal to
`(2 * sum(target * prediction) + 1e-6) / (sum(target) + sum(prediction) + 1e-6)`,
where each sum reduces over exactly the spatial axes determined by the
layout: axes 2, 3, 4 for `NCDHW` and axes 1, 2, 3 otherwise. -/
theorem dice_call_overlap_formula (softmaxF : Tensor → ℤ → Tensor) (cfg : DiceCfg)
    (prediction target t2 p3 : Tensor) (n0 n1 n2 n3 n4 : ℕ)
    (hpre : Dice.preprocess softmaxF cfg prediction target = .ok (t2, p3))
    (hrank : prediction.shape.length = 5)
    (ht : t2.shape = [n0, n1, n2, n3, n4])
    (hp : p3.shape = t2.shape) :
    Dice.call softmaxF cfg prediction target
        = .ok (diceOverlap t2 p3 (reduceAxes cfg.layout prediction.shape.length))
    ∧ (cfg.layout = "NCDHW" →
        (diceOverlap t2 p3 (reduceAxes cfg.layout prediction.shape.length)).shape = [n0, n1]
        ∧ ∀ b c, (diceOverlap t2 p3 (reduceAxes cfg.layout prediction.shape.length)).data [b, c]
          = (2 * (∑ i ∈ Finset.range n2, ∑ j ∈ Finset.range n3, ∑ k ∈ Finset.range n4,
                t2.data [b, c, i, j, k] * p3.data [b, c, i, j, k]) + smooth_nr)
            / ((∑ i ∈ Finset.range n2, ∑ j ∈ Finset.range n3, ∑ k ∈ Finset.range n4,
                t2.data [b, c, i, j, k])
              + (∑ i ∈ Finset.range n2, ∑ j ∈ Finset.range n3, ∑ k ∈ Finset.range n4,
                p3.data [b, c, i, j, k]) + smooth_dr))
    ∧ (cfg.layout ≠ "NCDHW" →
        (diceOverlap t2 p3 (reduceAxes cfg.layout prediction.shape.length)).shape = [n0, n4]
        ∧ ∀ b c, (diceOverlap t2 p3 (reduceAxes cfg.layout prediction.shape.length)).data [b, c]
          = (2 * (∑ i ∈ Finset.range n1, ∑ j ∈ Finset.range n2, ∑ k ∈ Finset.range n3,
                t2.data [b, i, j, k, c] * p3.data [b, i, j, k, c]) + smooth_nr)
            / ((∑ i ∈ Finset.range n1, ∑ j ∈ Finset.range n2, ∑ k ∈ Finset.range n3,
                t2.data [b, i, j, k, c])
              + (∑ i ∈ Finset.range n1, ∑ j ∈ Finset.range n2, ∑ k ∈ Finset.range n3,
                p3.data [b, i, j, k, c]) + smooth_dr)) := by
  have hp' : p3.shape = [n0, n1, n2, n3, n4] := hp.trans ht
  refine ⟨by simp [Dice.call, hpre, hp.symm, Bind.bind, Except.bind], fun hL => ?_, fun hL => ?_⟩
  · have hax : reduceAxes cfg.layout prediction.shape.length = [2, 3, 4] := by
      rw [hL, hrank]
      rfl
    rw [hax]
    exact diceOverlap_NCDHW t2 p3 n0 n1 n2 n3 n4 ht hp'
  · have hax : reduceAxes cfg.layout prediction.shape.length = [1, 2, 3] := by
      rw [reduceAxes, if_neg hL, hrank]
      rfl
    rw [hax]
    exact diceOverlap_NDHWC t2 p3 n0 n1 n2 n3 n4 ht hp'

/-- Witness for C1 at a concrete rank-5 input. -/
theorem dice_call_overlap_formula_witness :
    Dice.call idSoftmax ⟨false, false, false, false, true, "NCDHW", 3⟩ oneT5 oneT5
        = .ok (diceOverlap oneT5 oneT5 (reduceAxes "NCDHW" 5))
    ∧ (diceOverlap oneT5 oneT5 (reduceAxes "NCDHW" 5)).shape = [1, 1]
    ∧ (diceOverlap oneT5 oneT5 (reduceAxes "NCDHW" 5)).data [0, 0]
        = (2 * (∑ i ∈ Finset.range 1, ∑ j ∈ Finset.range 1, ∑ k ∈ Finset.range 1,
              oneT5.data [0, 0, i, j, k] * oneT5.data [0, 0, i, j, k]) + smooth_nr)
          / ((∑ i ∈ Finset.range 1, ∑ j ∈ Finset.range 1, ∑ k ∈ Finset.range 1,
              oneT5.data [0, 0, i, j, k])
            + (∑ i ∈ Finset.range 1, ∑ j ∈ Finset.range 1, ∑ k ∈ Finset.range 1,
              oneT5.data [0, 0, i, j, k]) + smooth_dr) :=
  have h := dice_call_overlap_formula idSoftmax ⟨false, false, false, false, true, "NCDHW", 3⟩
    oneT5 oneT5 oneT5 oneT5 1 1 1 1 1 rfl rfl rfl rfl
  ⟨h.1, (h.2.1 rfl).1, (h.2.1 rfl).2 0 0⟩

/-- C2 (amended): when `include_background` is false and the preceding
normalization and one-hot-encoding steps complete without error,
`Dice.__call__` fails with the configuration error exactly when the
prediction's channel count is at most 1 (the source's
`assert num_pred_ch > 1` also fails for a zero-channel prediction, not
only for a single-channel one); with more than one channel the step never
errors and instead drops channel index 0 from both the encoded target and
the encoded prediction along the channel axis. -/
theorem dice_background_exclusion_check (softmaxF : Tensor → ℤ → Tensor) (cfg : DiceCfg)
    (prediction target t1 p2 : Tensor)
    (henc : Dice.encodeStage softmaxF cfg prediction target = .ok (t1, p2))
    (hbg : cfg.include_background = false) :
    ((∃ n, Dice.call softmaxF cfg prediction target = .error (.backgroundSingle n))
        ↔ numPredCh cfg.layout prediction ≤ 1)
    ∧ (numPredCh cfg.layout prediction ≤ 1 →
        Dice.call softmaxF cfg prediction target
          = .error (.backgroundSingle (numPredCh cfg.layout prediction)))
    ∧ (1 < numPredCh cfg.layout prediction →
        Dice.preprocess softmaxF cfg prediction target
          = .ok (dropChannel cfg.layout t1, dropChannel cfg.layout p2)) := by
  by_cases h : 1 < numPredCh cfg.layout prediction
  · have hpre : Dice.preprocess softmaxF cfg prediction target
        = .ok (dropChannel cfg.layout t1, dropChannel cfg.layout p2) := by
      simp [Dice.preprocess, henc, hbg, h, Bind.bind, Except.bind]
    refine ⟨?_, by omega, fun _ => hpre⟩
    constructor
    · rintro ⟨n, hn⟩
      rw [Dice.call] at hn
      rw [hpre] at hn
      by_cases hs : (dropChannel cfg.layout t1).shape = (dropChannel cfg.layout p2).shape
      · simp [Bind.bind, Except.bind, hs] at hn
      · simp [Bind.bind, Except.bind, hs] at hn
    · omega
  · have hpre : Dice.preprocess softmaxF cfg prediction target
        = .error (.backgroundSingle (numPredCh cfg.layout prediction)) := by
      simp [Dice.preprocess, henc, hbg, h, Bind.bind, Except.bind]
    have hcall : Dice.call softmaxF cfg prediction target
        = .error (.backgroundSingle (numPredCh cfg.layout prediction)) := by
      rw [Dice.call, hpre]
      rfl
    exact ⟨⟨fun _ => by omega, fun _ => ⟨_, hcall⟩⟩, fun _ => hcall, by omega⟩

/-- Witness for C2's amended statement: a single-channel prediction whose
encoding steps succeed and whose `include_background=False` call fails
with the configuration error. -/
theorem dice_background_exclusion_check_witness :
    Dice.call idSoftmax ⟨false, false, false, false, false, "NCDHW", 3⟩ oneT5 oneT5
      = .error (.backgroundSingle 1) :=
  (dice_background_exclusion_check idSoftmax ⟨false, false, false, false, false, "NCDHW", 3⟩
    oneT5 oneT5 oneT5 oneT5 rfl rfl).2.1 (by decide)

/-- Counterexample to C2 as stated, in both directions of its iff: a
prediction whose channel axis has extent 0 (so `num_pred_ch = 0 ≠ 1`)
also makes `Dice.__call__` fail with the background configuration error;
and a single-channel prediction (`num_pred_ch = 1`) with `to_onehot_y`
set and an out-of-range target label makes the call fail at the one-hot
expansion of line 40, before the assert of line 46, hence not with the
configuration error. -/
theorem dice_background_exclusion_cex :
    (numPredCh "NCDHW" zeroChanPred = 0
      ∧ Dice.call idSoftmax ⟨false, false, false, false, false, "NCDHW", 3⟩
          zeroChanPred zeroChanPred
        = .error (.backgroundSingle 0))
    ∧ (numPredCh "NCDHW" oneT5 = 1
      ∧ Dice.call idSoftmax ⟨true, false, false, false, false, "NCDHW", 3⟩ oneT5 oneT5
        = .error .oneHotOutOfRange) :=
  ⟨⟨rfl, rfl⟩, ⟨rfl, rfl⟩⟩

/-- C3: once normalization, one-hot encoding and background exclusion have
produced the pair `(t2, p3)`, `Dice.__call__` fails exactly when the two
shapes differ, the failure reports both shapes, and when the shapes agree
the call proceeds to the smoothed overlap computation. -/
theorem dice_shape_check (softmaxF : Tensor → ℤ → Tensor) (cfg : DiceCfg)
    (prediction target t2 p3 : Tensor)
    (hpre : Dice.preprocess softmaxF cfg prediction target = .ok (t2, p3)) :
    (t2.shape = p3.shape →
      Dice.call softmaxF cfg prediction target
        = .ok (diceOverlap t2 p3 (reduceAxes cfg.layout prediction.shape.length)))
    ∧ (t2.shape ≠ p3.shape →
      Dice.call softmaxF cfg prediction target = .error (.shapeMismatch t2.shape p3.shape))
    ∧ (∀ e, Dice.call softmaxF cfg prediction target = .error e
        ↔ t2.shape ≠ p3.shape ∧ e = .shapeMismatch t2.shape p3.shape) := by
  refine ⟨fun h => ?_, fun h => ?_, fun e => ?_⟩
  · simp [Dice.call, hpre, h, Bind.bind, Except.bind]
  · simp [Dice.call, hpre, h, Bind.bind, Except.bind]
  · by_cases h : t2.shape = p3.shape
    · simp [Dice.call, hpre, h, Bind.bind, Except.bind]
    · simp only [Dice.call, hpre, Bind.bind, Except.bind]
      constructor
      · intro he
        simp [h] at he
        exact ⟨h, he.symm⟩
      · rintro ⟨-, rfl⟩
        simp [h]

/-- Witness for C3 at a concrete input whose shapes agree. -/
theorem dice_shape_check_witness :
    Dice.call idSoftmax ⟨false, false, false, false, true, "NCDHW", 3⟩ oneT5 oneT5
      = .ok (diceOverlap oneT5 oneT5 (reduceAxes "NCDHW" 5)) :=
  (dice_shape_check idSoftmax ⟨false, false, false, false, true, "NCDHW", 3⟩
    oneT5 oneT5 oneT5 oneT5 rfl).1 rfl

/-- C4: for every integer label tensor whose values all lie in
`[0, num_classes)` (represented by an integer-valued data function `f`),
`to_one_hot` returns the indicator expansion: after removing the singleton
channel dimension when the input has 5 or more dimensions, the output voxel
at channel `c` is 1 exactly when that voxel's class index equals `c`; for
layout `NCDHW` the indicator axis is moved from the last position to axis
1, giving the ordering [batch, class, depth, height, width], and for
`NDHWC` no axes are reordered. -/
theorem to_one_hot_indicator_spec (t : Tensor) (k : ℕ) (f : List ℕ → ℕ)
    (hdata : ∀ idx, t.data idx = (f idx : ℚ))
    (hrange : ∀ idx, f idx < k) :
    (∀ n0 n1 n2 n3, t.shape = [n0, 1, n1, n2, n3] →
      (to_one_hot t "NCDHW" 1 k).shape = [n0, k, n1, n2, n3]
      ∧ ∀ b c x y z, (to_one_hot t "NCDHW" 1 k).data [b, c, x, y, z]
          = if f [b, 0, x, y, z] = c then 1 else 0)
    ∧ (∀ n0 n1 n2 n3, t.shape = [n0, n1, n2, n3] →
      (to_one_hot t "NCDHW" 1 k).shape = [n0, k, n1, n2, n3]
      ∧ ∀ b c x y z, (to_one_hot t "NCDHW" 1 k).data [b, c, x, y, z]
          = if f [b, x, y, z] = c then 1 else 0)
    ∧ (∀ n0 n1 n2 n3, t.shape = [n0, n1, n2, n3, 1] →
      (to_one_hot t "NDHWC" (-1) k).shape = [n0, n1, n2, n3, k]
      ∧ ∀ b x y z c, (to_one_hot t "NDHWC" (-1) k).data [b, x, y, z, c]
          = if f [b, x, y, z, 0] = c then 1 else 0) :=
  ⟨fun n0 n1 n2 n3 h => to_one_hot_NCDHW5 t k n0 n1 n2 n3 f h hdata,
   fun n0 n1 n2 n3 h => to_one_hot_NCDHW4 t k n0 n1 n2 n3 f h hdata,
   fun n0 n1 n2 n3 h => to_one_hot_NDHWC5 t k n0 n1 n2 n3 f h hdata⟩

/-- Witness for C4 at a concrete rank-5 label map. -/
theorem to_one_hot_indicator_spec_witness :
    (to_one_hot zeroT5 "NCDHW" 1 1).shape = [1, 1, 1, 1, 1]
    ∧ (to_one_hot zeroT5 "NCDHW" 1 1).data [0, 0, 0, 0, 0] = 1 :=
  have h := (to_one_hot_indicator_spec zeroT5 1 (fun _ => 0) (fun _ => by simp [zeroT5])
    (fun _ => Nat.one_pos)).1 1 1 1 1 rfl
  ⟨h.1, h.2 0 0 0 0 0⟩

/-- C5: `DiceCELoss.forward` returns `(dice_loss + cross_entropy) / 2`,
where `cross_entropy` is the external cross-entropy primitive applied to
the raw prediction logits and the target with its singleton axis-1 channel
squeezed and cast to integer class indices, and `dice_loss` is the mean
over batch and class of `1.0 - dice_ratio` for the wrapped `Dice` computer
configured with `use_softmax=True`, no argmax and no prediction one-hot
encoding. -/
theorem diceCELoss_forward_spec (softmaxF : Tensor → ℤ → Tensor) (ce : Tensor → Tensor → ℚ)
    (oy bg : Bool) (L : String) (nc : ℕ) (y_pred y_true d : Tensor)
    (hd : Dice.call softmaxF ⟨oy, false, true, false, bg, L, nc⟩ y_pred y_true = .ok d) :
    DiceCELoss.forward softmaxF ce oy true L bg nc y_pred y_true
      = .ok ((tmean (oneSub d) + ce y_pred (tensorLong (squeezeDim y_true 1))) / 2) := by
  simp [DiceCELoss.forward, hd, Bind.bind, Except.bind, pure, Except.pure]

/-- Witness for C5 at a concrete input. -/
theorem diceCELoss_forward_spec_witness :
    DiceCELoss.forward idSoftmax zeroLoss false true "NCDHW" true 3 oneT5 oneT5
      = .ok ((tmean (oneSub (diceOverlap oneT5 oneT5 (reduceAxes "NCDHW" 5)))
          + zeroLoss oneT5 (tensorLong (squeezeDim oneT5 1))) / 2) :=
  diceCELoss_forward_spec idSoftmax zeroLoss false true "NCDHW" 3 oneT5 oneT5
    (diceOverlap oneT5 oneT5 (reduceAxes "NCDHW" 5)) rfl

/-- C6: `LossBraTS.forward` derives the three binary region masks — whole
tumor `target > 0`, tumor core `target == 1 or target == 3`, enhancing
tumor `target == 3` — pairs them with prediction channels 0, 1, 2, computes
per region the binary loss (external sigmoid batch-wise Dice loss plus
binary cross-entropy with logits) and returns the sum of the three region
losses; the mask table is: a voxel labeled 3 lies in all three masks, 2
only in whole tumor, 1 in whole and core but not enhancing, 0 in none. -/
theorem lossBraTS_forward_spec (diceL bce : Tensor → Tensor → ℚ) (p y : Tensor) :
    (LossBraTS.forward diceL bce p y
      = LossBraTS.loss diceL bce (selectChannel p 0) (tensorGtZero y)
        + LossBraTS.loss diceL bce (selectChannel p 1)
            (tensorGtZero (tensorAdd (tensorEqConst y 1) (tensorEqConst y 3)))
        + LossBraTS.loss diceL bce (selectChannel p 2) (tensorEqConst y 3))
    ∧ ∀ idx,
        (y.data idx = 3 →
          (tensorGtZero y).data idx = 1
          ∧ (tensorGtZero (tensorAdd (tensorEqConst y 1) (tensorEqConst y 3))).data idx = 1
          ∧ (tensorEqConst y 3).data idx = 1)
        ∧ (y.data idx = 2 →
          (tensorGtZero y).data idx = 1
          ∧ (tensorGtZero (tensorAdd (tensorEqConst y 1) (tensorEqConst y 3))).data idx = 0
          ∧ (tensorEqConst y 3).data idx = 0)
        ∧ (y.data idx = 1 →
          (tensorGtZero y).data idx = 1
          ∧ (tensorGtZero (tensorAdd (tensorEqConst y 1) (tensorEqConst y 3))).data idx = 1
          ∧ (tensorEqConst y 3).data idx = 0)
        ∧ (y.data idx = 0 →
          (tensorGtZero y).data idx = 0
          ∧ (tensorGtZero (tensorAdd (tensorEqConst y 1) (tensorEqConst y 3))).data idx = 0
          ∧ (tensorEqConst y 3).data idx = 0) := by
  refine ⟨rfl, fun idx => ⟨fun h => ?_, fun h => ?_, fun h => ?_, fun h => ?_⟩⟩ <;>
    simp [tensorGtZero, tensorAdd, tensorEqConst, h]

/-- Witness for C6: the mask table evaluated on a concrete target holding
each of the label values 0, 1, 2 and 3. -/
theorem lossBraTS_forward_spec_witness :
    ((tensorGtZero y4).data [0, 0, 1, 1] = 1
      ∧ (tensorGtZero (tensorAdd (tensorEqConst y4 1) (tensorEqConst y4 3))).data [0, 0, 1, 1] = 1
      ∧ (tensorEqConst y4 3).data [0, 0, 1, 1] = 1)
    ∧ ((tensorGtZero y4).data [0, 0, 1, 0] = 1
      ∧ (tensorGtZero (tensorAdd (tensorEqConst y4 1) (tensorEqConst y4 3))).data [0, 0, 1, 0] = 0
      ∧ (tensorEqConst y4 3).data [0, 0, 1, 0] = 0)
    ∧ ((tensorGtZero y4).data [0, 0, 0, 1] = 1
      ∧ (tensorGtZero (tensorAdd (tensorEqConst y4 1) (tensorEqConst y4 3))).data [0, 0, 0, 1] = 1
      ∧ (tensorEqConst y4 3).data [0, 0, 0, 1] = 0)
    ∧ ((tensorGtZero y4).data [0, 0, 0, 0] = 0
      ∧ (tensorGtZero (tensorAdd (tensorEqConst y4 1) (tensorEqConst y4 3))).data [0, 0, 0, 0] = 0
      ∧ (tensorEqConst y4 3).data [0, 0, 0, 0] = 0) :=
  have h := lossBraTS_forward_spec zeroLoss zeroLoss oneT5 y4
  ⟨(h.2 [0, 0, 1, 1]).1 rfl, (h.2 [0, 0, 1, 0]).2.1 rfl,
   (h.2 [0, 0, 0, 1]).2.2.1 rfl, (h.2 [0, 0, 0, 0]).2.2.2 rfl⟩

/-- C7: for a multi-channel prediction and layout-conforming rank-5 data,
running `Dice.__call__` with `include_background=True` and then dropping
index 0 of the per-class result along the class dimension yields exactly
the same tensor as running it with `include_background=False` and all other
configuration fields identical on the same inputs. -/
theorem dice_include_background_roundtrip (softmaxF : Tensor → ℤ → Tensor) (oy ox sm am : Bool)
    (L : String) (nc : ℕ) (prediction target t2 p3 : Tensor) (n0 n1 n2 n3 n4 : ℕ)
    (hch : 1 < numPredCh L prediction)
    (hpre : Dice.preprocess softmaxF ⟨oy, ox, sm, am, true, L, nc⟩ prediction target
      = .ok (t2, p3))
    (hrank : prediction.shape.length = 5)
    (ht : t2.shape = [n0, n1, n2, n3, n4])
    (hp : p3.shape = t2.shape) :
    Dice.call softmaxF ⟨oy, ox, sm, am, true, L, nc⟩ prediction target
      = .ok (diceOverlap t2 p3 (reduceAxes L prediction.shape.length))
    ∧ Dice.call softmaxF ⟨oy, ox, sm, am, false, L, nc⟩ prediction target
      = .ok (diceOverlap (dropChannel L t2) (dropChannel L p3)
          (reduceAxes L prediction.shape.length))
    ∧ Tensor.Eq
        (diceOverlap (dropChannel L t2) (dropChannel L p3)
          (reduceAxes L prediction.shape.length))
        (dropChannel L (diceOverlap t2 p3 (reduceAxes L prediction.shape.length))) := by
  have hp5 : p3.shape = [n0, n1, n2, n3, n4] := hp.trans ht
  have hcallT : Dice.call softmaxF ⟨oy, ox, sm, am, true, L, nc⟩ prediction target
      = .ok (diceOverlap t2 p3 (reduceAxes L prediction.shape.length)) := by
    simp [Dice.call, hpre, hp.symm, Bind.bind, Except.bind]
  have hes : Dice.encodeStage softmaxF ⟨oy, ox, sm, am, true, L, nc⟩ prediction target
      = .ok (t2, p3) := by
    rcases h : Dice.encodeStage softmaxF ⟨oy, ox, sm, am, true, L, nc⟩ prediction target
      with e | pair
    · rw [Dice.preprocess, h] at hpre
      simp [Bind.bind, Except.bind] at hpre
    · obtain ⟨u1, u2⟩ := pair
      rw [Dice.preprocess, h] at hpre
      simp [Bind.bind, Except.bind] at hpre
      obtain ⟨h1, h2⟩ := hpre
      rw [h1, h2]
  have hesF : Dice.encodeStage softmaxF ⟨oy, ox, sm, am, false, L, nc⟩ prediction target
      = .ok (t2, p3) := hes
  have hpreF : Dice.preprocess softmaxF ⟨oy, ox, sm, am, false, L, nc⟩ prediction target
      = .ok (dropChannel L t2, dropChannel L p3) := by
    rw [Dice.preprocess, hesF]
    simp [Bind.bind, Except.bind, hch]
  have hshF : (dropChannel L t2).shape = (dropChannel L p3).shape := by
    rw [dropChannel_shape, dropChannel_shape, hp]
  have hcallF : Dice.call softmaxF ⟨oy, ox, sm, am, false, L, nc⟩ prediction target
      = .ok (diceOverlap (dropChannel L t2) (dropChannel L p3)
          (reduceAxes L prediction.shape.length)) := by
    simp [Dice.call, hpreF, hshF, Bind.bind, Except.bind]
  refine ⟨hcallT, hcallF, ?_⟩
  by_cases hL : L = "NCDHW"
  · subst hL
    have hdt : (dropChannel "NCDHW" t2).shape = [n0, n1 - 1, n2, n3, n4] := by
      rw [dropChannel_shape, ht]
      rfl
    have hdp : (dropChannel "NCDHW" p3).shape = [n0, n1 - 1, n2, n3, n4] := by
      rw [dropChannel_shape, hp5]
      rfl
    have hax : reduceAxes "NCDHW" prediction.shape.length = [2, 3, 4] := by
      rw [hrank]; rfl
    rw [hax]
    obtain ⟨hRs, hRd⟩ := diceOverlap_NCDHW t2 p3 n0 n1 n2 n3 n4 ht hp5
    obtain ⟨hSs, hSd⟩ := diceOverlap_NCDHW _ _ n0 (n1 - 1) n2 n3 n4 hdt hdp
    constructor
    · rw [hSs, dropChannel_shape, hRs]
      rfl
    · intro idx hmem
      rw [hSs] at hmem
      obtain ⟨b, c, hb, hc, rfl⟩ := mem_allIdx_pair n0 (n1 - 1) _ hmem
      rw [hSd b c]
      have hdrop : (dropChannel "NCDHW" (diceOverlap t2 p3 [2, 3, 4])).data [b, c]
          = (diceOverlap t2 p3 [2, 3, 4]).data [b, c + 1] := rfl
      rw [hdrop, hRd b (c + 1)]
      have hdt2 : ∀ i j k : ℕ, (dropChannel "NCDHW" t2).data [b, c, i, j, k]
          = t2.data [b, c + 1, i, j, k] := fun i j k => rfl
      have hdp2 : ∀ i j k : ℕ, (dropChannel "NCDHW" p3).data [b, c, i, j, k]
          = p3.data [b, c + 1, i, j, k] := fun i j k => rfl
      simp only [hdt2, hdp2]
  · have hdt : (dropChannel L t2).shape = [n0, n1, n2, n3, n4 - 1] := by
      rw [dropChannel_shape, ht, if_neg hL]
      rfl
    have hdp : (dropChannel L p3).shape = [n0, n1, n2, n3, n4 - 1] := by
      rw [dropChannel_shape, hp5, if_neg hL]
      rfl
    have hax : reduceAxes L prediction.shape.length = [1, 2, 3] := by
      rw [reduceAxes, if_neg hL, hrank]
      rfl
    rw [hax]
    obtain ⟨hRs, hRd⟩ := diceOverlap_NDHWC t2 p3 n0 n1 n2 n3 n4 ht hp5
    obtain ⟨hSs, hSd⟩ := diceOverlap_NDHWC _ _ n0 n1 n2 n3 (n4 - 1) hdt hdp
    constructor
    · rw [hSs, dropChannel_shape, hRs, if_neg hL]
      rfl
    · intro idx hmem
      rw [hSs] at hmem
      obtain ⟨b, c, hb, hc, rfl⟩ := mem_allIdx_pair n0 (n4 - 1) _ hmem
      rw [hSd b c]
      have hdrop : (dropChannel L (diceOverlap t2 p3 [1, 2, 3])).data [b, c]
          = (diceOverlap t2 p3 [1, 2, 3]).data [b, c + 1] := by
        rw [show (dropChannel L (diceOverlap t2 p3 [1, 2, 3])).data [b, c]
            = (diceOverlap t2 p3 [1, 2, 3]).data
                (([b, c] : List ℕ).set
                  (if L = "NCDHW" then 1 else (diceOverlap t2 p3 [1, 2, 3]).shape.length - 1)
                  (([b, c] : List ℕ).getD
                    (if L = "NCDHW" then 1
                     else (diceOverlap t2 p3 [1, 2, 3]).shape.length - 1) 0 + 1))
          from rfl]
        rw [if_neg hL, hRs]
        rfl
      rw [hdrop, hRd b (c + 1)]
      have hdt2 : ∀ i j k : ℕ, (dropChannel L t2).data [b, i, j, k, c]
          = t2.data [b, i, j, k, c + 1] := by
        intro i j k
        rw [show (dropChannel L t2).data [b, i, j, k, c]
            = t2.data (([b, i, j, k, c] : List ℕ).set
                (if L = "NCDHW" then 1 else t2.shape.length - 1)
                (([b, i, j, k, c] : List ℕ).getD
                  (if L = "NCDHW" then 1 else t2.shape.length - 1) 0 + 1)) from rfl]
        rw [if_neg hL, ht]
        rfl
      have hdp2 : ∀ i j k : ℕ, (dropChannel L p3).data [b, i, j, k, c]
          = p3.data [b, i, j, k, c + 1] := by
        intro i j k
        rw [show (dropChannel L p3).data [b, i, j, k, c]
            = p3.data (([b, i, j, k, c] : List ℕ).set
                (if L = "NCDHW" then 1 else p3.shape.length - 1)
                (([b, i, j, k, c] : List ℕ).getD
                  (if L = "NCDHW" then 1 else p3.shape.length - 1) 0 + 1)) from rfl]
        rw [if_neg hL, hp5]
        rfl
      simp only [hdt2, hdp2]

/-- Witness for C7 at a concrete two-channel input. -/
theorem dice_include_background_roundtrip_witness :
    Dice.call idSoftmax ⟨false, false, false, false, true, "NCDHW", 3⟩ twoT5 twoT5
      = .ok (diceOverlap twoT5 twoT5 (reduceAxes "NCDHW" 5))
    ∧ Dice.call idSoftmax ⟨false, false, false, false, false, "NCDHW", 3⟩ twoT5 twoT5
      = .ok (diceOverlap (dropChannel "NCDHW" twoT5) (dropChannel "NCDHW" twoT5)
          (reduceAxes "NCDHW" 5))
    ∧ Tensor.Eq
        (diceOverlap (dropChannel "NCDHW" twoT5) (dropChannel "NCDHW" twoT5)
          (reduceAxes "NCDHW" 5))
        (dropChannel "NCDHW" (diceOverlap twoT5 twoT5 (reduceAxes "NCDHW" 5))) :=
  dice_include_background_roundtrip idSoftmax false false false false "NCDHW" 3
    twoT5 twoT5 twoT5 twoT5 1 2 1 1 1 (by decide) rfl rfl rfl rfl

/-- C8: applying `to_one_hot` to a dense integer label map and collapsing
the result with a per-voxel argmax over the channel axis reproduces the
original label map exactly. -/
theorem to_one_hot_argmax_roundtrip (t : Tensor) (k n0 n1 n2 n3 : ℕ) (f : List ℕ → ℕ)
    (hsh : t.shape = [n0, n1, n2, n3])
    (hdata : ∀ idx, t.data idx = (f idx : ℚ))
    (hrange : ∀ idx, f idx < k) :
    Tensor.Eq (argmaxAlong (to_one_hot t "NCDHW" 1 k) 1) t := by
  obtain ⟨hoSh, hoData⟩ := to_one_hot_NCDHW4 t k n0 n1 n2 n3 f hsh hdata
  constructor
  · rw [show (argmaxAlong (to_one_hot t "NCDHW" 1 k) 1).shape
        = (to_one_hot t "NCDHW" 1 k).shape.eraseIdx
            (resolveAxis (to_one_hot t "NCDHW" 1 k).shape.length 1) from rfl]
    rw [hoSh, hsh]
    simp [resolveAxis, List.eraseIdx]
  · intro idx hmem
    have hsh' : (argmaxAlong (to_one_hot t "NCDHW" 1 k) 1).shape = [n0, n1, n2, n3] := by
      rw [show (argmaxAlong (to_one_hot t "NCDHW" 1 k) 1).shape
          = (to_one_hot t "NCDHW" 1 k).shape.eraseIdx
              (resolveAxis (to_one_hot t "NCDHW" 1 k).shape.length 1) from rfl]
      rw [hoSh]
      simp [resolveAxis, List.eraseIdx]
    rw [hsh'] at hmem
    obtain ⟨b, x, y, z, hb, hx, hy, hz, rfl⟩ := mem_allIdx_four n0 n1 n2 n3 idx hmem
    have hres : resolveAxis (to_one_hot t "NCDHW" 1 k).shape.length 1 = 1 := by
      rw [hoSh]; simp [resolveAxis]
    have hk : (to_one_hot t "NCDHW" 1 k).shape.getD 1 0 = k := by
      rw [hoSh]; rfl
    show (((List.range ((to_one_hot t "NCDHW" 1 k).shape.getD
          (resolveAxis (to_one_hot t "NCDHW" 1 k).shape.length 1) 0)).foldl
        (fun best i =>
          if (to_one_hot t "NCDHW" 1 k).data
              ([b, x, y, z].insertIdx (resolveAxis (to_one_hot t "NCDHW" 1 k).shape.length 1) i)
              > (to_one_hot t "NCDHW" 1 k).data
                ([b, x, y, z].insertIdx
                  (resolveAxis (to_one_hot t "NCDHW" 1 k).shape.length 1) best)
          then i else best) 0 : ℕ) : ℚ) = t.data [b, x, y, z]
    rw [hres, hk]
    have hfun : (fun (best : ℕ) (i : ℕ) =>
        if (to_one_hot t "NCDHW" 1 k).data ([b, x, y, z].insertIdx 1 i)
            > (to_one_hot t "NCDHW" 1 k).data ([b, x, y, z].insertIdx 1 best)
        then i else best)
        = fun best i =>
          if (fun j => if f [b, x, y, z] = j then (1 : ℚ) else 0) i
              > (fun j => if f [b, x, y, z] = j then (1 : ℚ) else 0) best
          then i else best := by
      funext best i
      have h1 : ([b, x, y, z] : List ℕ).insertIdx 1 i = [b, i, x, y, z] := by
        simp [List.insertIdx]
      have h2 : ([b, x, y, z] : List ℕ).insertIdx 1 best = [b, best, x, y, z] := by
        simp [List.insertIdx]
      rw [h1, h2, hoData b i x y z, hoData b best x y z]
    rw [hfun]
    rw [foldl_argmax_indicator (fun j => if f [b, x, y, z] = j then (1 : ℚ) else 0)
      (f [b, x, y, z]) k (hrange [b, x, y, z]) (by simp) (fun j hj => by simp [Ne.symm hj])]
    rw [hdata]

/-- Witness for C8 at a concrete label map. -/
theorem to_one_hot_argmax_roundtrip_witness :
    Tensor.Eq (argmaxAlong (to_one_hot zeroT4 "NCDHW" 1 1) 1) zeroT4 :=
  to_one_hot_argmax_roundtrip zeroT4 1 1 1 1 1 (fun _ => 0) rfl (fun _ => by simp [zeroT4])
    (fun _ => Nat.one_pos)

/-- C9: the `num_classes` value supplied to the `Dice` configuration never
influences the result or the error behavior of `Dice.__call__`: two
configurations identical except in `num_classes` give identical outcomes,
because the effective class count is read at call time from the
prediction's channel axis. -/
theorem dice_num_classes_irrelevant (softmaxF : Tensor → ℤ → Tensor) (oy ox sm am bg : Bool)
    (L : String) (nc1 nc2 : ℕ) (prediction target : Tensor) :
    Dice.call softmaxF ⟨oy, ox, sm, am, bg, L, nc1⟩ prediction target
      = Dice.call softmaxF ⟨oy, ox, sm, am, bg, L, nc2⟩ prediction target := rfl

/-- C10: when both `use_softmax` and `use_argmax` are set, the
normalization step of `Dice.__call__` applies softmax along the channel
axis and skips the argmax collapse entirely; the argmax branch runs only
when `use_softmax` is false and `use_argmax` is true. -/
theorem dice_softmax_precedence (softmaxF : Tensor → ℤ → Tensor) (cfg : DiceCfg)
    (prediction : Tensor) :
    (cfg.use_softmax = true →
      normalizePred softmaxF cfg prediction = softmaxF prediction (channelAxis cfg.layout))
    ∧ (cfg.use_softmax = false → cfg.use_argmax = true →
      normalizePred softmaxF cfg prediction = argmaxAlong prediction (channelAxis cfg.layout))
    ∧ (cfg.use_softmax = false → cfg.use_argmax = false →
      normalizePred softmaxF cfg prediction = prediction) :=
  ⟨fun h => by simp [normalizePred, h], fun h h' => by simp [normalizePred, h, h'],
   fun h h' => by simp [normalizePred, h, h']⟩

/-- Witness for C10 at a configuration with both flags set. -/
theorem dice_softmax_precedence_witness :
    normalizePred idSoftmax ⟨false, false, true, true, false, "NCDHW", 3⟩ oneT5
      = idSoftmax oneT5 (channelAxis "NCDHW") :=
  (dice_softmax_precedence idSoftmax ⟨false, false, true, true, false, "NCDHW", 3⟩ oneT5).1 rfl
